import Mathlib

/-!
# `usb_dev.cc`: from a USB VID/PID to the root path of its volume

A shallow embedding of `src/usb_dev.cc`.  C strings are lists of `Char`
terminated by the NUL character, `unsigned long` values are natural numbers
below `2 ^ 32`, and the Windows services the code calls are the fields of
the structure `OS`.  A C++ exception or a run-time constraint violation is
the `Except.error` case of a result.
-/

namespace UsbDev

/-! ## C strings -/

/-- The terminating character of a C string; also what `NULL` is once
converted to `char`. -/
def NUL : Char := Char.ofNat 0

/-- The C string stored at the start of a character buffer: the characters
before the first NUL. -/
def cstr : List Char → List Char
  | [] => []
  | c :: cs => if c = NUL then [] else c :: cstr cs

/-! ## `regex_search` and `isSelectedUsbDevInst` -/

/-- The character class `[0-9A-F]` of the pattern. -/
def isUpperHex (c : Char) : Bool :=
  (decide ('0' ≤ c) && decide (c ≤ '9')) || (decide ('A' ≤ c) && decide (c ≤ 'F'))

/-- Matching a run of literal pattern characters at the start of the text:
the rest of the text when they are all there. -/
def dropLit : List Char → List Char → Option (List Char)
  | [], t => some t
  | _ :: _, [] => none
  | l :: ls, c :: cs => if l = c then dropLit ls cs else none

/-- The group `([0-9A-F]{4})`: exactly four characters of the class, captured,
and the rest of the text. -/
def takeHex4 : List Char → Option (List Char × List Char)
  | a :: b :: c :: d :: rest =>
    if isUpperHex a && isUpperHex b && isUpperHex c && isUpperHex d
    then some ([a, b, c, d], rest) else none
  | _ => none

/-- The literal `USB\VID_` the pattern starts with. -/
def litUsbVid : List Char := ['U', 'S', 'B', '\\', 'V', 'I', 'D', '_']

/-- The literal `&PID_` between the two groups. -/
def litPid : List Char := ['&', 'P', 'I', 'D', '_']

/-- The literal backslash that ends the pattern. -/
def litEnd : List Char := ['\\']

/-- The pattern `USB\\VID_([0-9A-F]{4})&PID_([0-9A-F]{4})\\` matched at the
very start of the text.  On success the sub-matches, in the order of
`smatch`: the whole match, group 1, group 2. -/
def matchHere (t : List Char) : Option (List (List Char)) :=
  match dropLit litUsbVid t with
  | none => none
  | some t1 =>
    match takeHex4 t1 with
    | none => none
    | some (g1, t2) =>
      match dropLit litPid t2 with
      | none => none
      | some t3 =>
        match takeHex4 t3 with
        | none => none
        | some (g2, t4) =>
          match dropLit litEnd t4 with
          | none => none
          | some _ => some [litUsbVid ++ g1 ++ litPid ++ g2 ++ litEnd, g1, g2]

/-- The helper `regex_search(text, re)` for the one pattern the program uses:
`std::regex_search` finds the leftmost match, and the sub-matches of `m` are
copied into the result; when nothing matches `m` is empty and so is the
result. -/
def regex_search : List Char → List (List Char)
  | [] => []
  | c :: cs =>
    match matchHere (c :: cs) with
    | some m => m
    | none => regex_search cs

/-- The value of a hexadecimal digit, as `%x` reads it (either case). -/
def hexValue (c : Char) : Option Nat :=
  if '0' ≤ c ∧ c ≤ '9' then some (c.toNat - 48)
  else if 'A' ≤ c ∧ c ≤ 'F' then some (c.toNat - 55)
  else if 'a' ≤ c ∧ c ≤ 'f' then some (c.toNat - 87)
  else none

/-- Accumulating the digits of a run of hexadecimal digits; the run ends at
the first character that is not a digit. -/
def scanHexDigits (acc : Nat) : List Char → Nat
  | [] => acc
  | c :: cs =>
    match hexValue c with
    | some d => scanHexDigits (acc * 16 + d) cs
    | none => acc

/-- An `unsigned` 32-bit pattern read as an `int`. -/
def toInt32 (n : Nat) : Int :=
  if n % 2 ^ 32 < 2 ^ 31 then ((n % 2 ^ 32 : Nat) : Int) else ((n % 2 ^ 32 : Nat) : Int) - 2 ^ 32

/-- The conversion `sscanf_s(s, "%x", &out)` on a string that starts with its
digits (the captures of the pattern hold neither blanks, a sign nor an `x`):
`none` when there is no digit and `out` is left unassigned. -/
def sscanf_x (s : List Char) : Option Int :=
  match s with
  | [] => none
  | c :: cs =>
    match hexValue c with
    | some d => some (toInt32 (scanHexDigits d cs))
    | none => none

/-- The function `isSelectedUsbDevInst(vid, pid, instanceId)`. -/
def isSelectedUsbDevInst (vid pid : Int) (instanceId : List Char) : Bool :=
  let text := cstr instanceId
  let result := regex_search text
  if result.length ≠ 3 then false
  else
    match sscanf_x (result.getD 1 []), sscanf_x (result.getD 2 []) with
    | some instVid, some instPid => decide (vid = instVid) && decide (pid = instPid)
    | _, _ => false

/-! ## The Windows services the program calls -/

/-- What goes wrong at run time other than a plain failure result. -/
inductive Fault where
  /-- The exception `std::out_of_range` thrown by `vector::at`. -/
  | out_of_range
  /-- The run-time constraint violation of `memcpy_s`. -/
  | invalid_parameter
  deriving DecidableEq, Repr

/-- One interface of the enumeration `SetupDiEnumDeviceInterfaces`, with what
the two calls of `SetupDiGetDeviceInterfaceDetailA` give for it. -/
structure DiskInterface where
  /-- The size the sizing call stores in `requiredSize` (it stays 0 when the
  call stores nothing). -/
  requiredSize : Nat
  /-- The fetch: `DevicePath` and `DevInst` on success, `none` on failure. -/
  detail : Option (List Char × Nat)

/-- The state of the operating system during one call: what each service
answers.  Handles and device instances are numbers, a device number is a
`DWORD`. -/
structure OS where
  /-- The disk interfaces in enumeration order; `none` when
  `SetupDiGetClassDevsA` returns `INVALID_HANDLE_VALUE`. -/
  SetupDiGetClassDevsA : Option (List DiskInterface)
  /-- The handle opened for a path; `none` is `INVALID_HANDLE_VALUE`. -/
  CreateFileA : List Char → Option Nat
  /-- The query `IOCTL_STORAGE_GET_DEVICE_NUMBER` on a handle: the field
  `DeviceNumber` on success. -/
  DeviceIoControl : Nat → Option Nat
  /-- The parent of a device instance; `none` is a result other than
  `CR_SUCCESS`. -/
  CM_Get_Parent : Nat → Option Nat
  /-- The identifier buffer of a device instance; `none` is a result other
  than `CR_SUCCESS`. -/
  CM_Get_Device_IDA : Nat → Option (List Char)
  /-- For a buffer length: the returned value and the characters stored in
  the buffer. -/
  GetLogicalDriveStringsA : Nat → Nat × List Char
  /-- The drive type of a root path. -/
  GetDriveTypeA : List Char → Nat
  /-- The device name buffer of a DOS device; `none` when the call returns 0. -/
  QueryDosDeviceA : List Char → Option (List Char)

/-- The macro `INVALID_DEVICE_NUMBER` is `-1`; every use converts it to
`unsigned long`, 32 bits wide on Windows. -/
def INVALID_DEVICE_NUMBER : Nat := 2 ^ 32 - 1

/-- The drive type `DRIVE_REMOVABLE` of `Windows.h`. -/
def DRIVE_REMOVABLE : Nat := 2

/-- The drive type `DRIVE_FIXED` of `Windows.h`. -/
def DRIVE_FIXED : Nat := 3

/-- The drive type `DRIVE_CDROM` of `Windows.h`. -/
def DRIVE_CDROM : Nat := 5

/-- The constant `MAX_PATH` of `Windows.h`. -/
def MAX_PATH : Nat := 260

/-- The value of `sizeof(NULL)`: in C++ `NULL` is the `int` literal `0`. -/
def sizeof_NULL : Nat := 4

/-! ## `isFloppy` and `isDisk` -/

/-- The marker `\Floppy` looked for in a device name. -/
def floppyMarker : List Char := ['\\', 'F', 'l', 'o', 'p', 'p', 'y']

/-- The test `strstr(hay, needle) != NULL`: the needle occurs in the hay. -/
def strstr : List Char → List Char → Bool
  | [], needle => (dropLit needle []).isSome
  | c :: cs, needle => (dropLit needle (c :: cs)).isSome || strstr cs needle

/-- The function `isFloppy(driveLetter)`. -/
def isFloppy (os : OS) (driveLetter : Char) : Bool :=
  let devPath := cstr [driveLetter, ':', NUL]
  match os.QueryDosDeviceA devPath with
  | none => false
  | some dosDevName => strstr (cstr dosDevName) floppyMarker

/-- The function `isDisk(driveLetter)`. -/
def isDisk (os : OS) (driveLetter : Char) : Bool :=
  let rootPath := cstr [driveLetter, ':', '\\', NUL]
  let driveType := os.GetDriveTypeA rootPath
  if driveType = DRIVE_REMOVABLE then
    (if !isFloppy os driveLetter then true else false)
  else if driveType = DRIVE_FIXED then true
  else if driveType = DRIVE_CDROM then false
  else false

/-! ## `getDevNumByPidVid` -/

/-- The expression `&buf.at(0)` on a vector of the given size: `at` throws
when the vector is empty. -/
def vector_at_0 (size : Nat) : Except Fault Unit :=
  if 0 < size then .ok () else .error .out_of_range

/-- The loop of `getDevNumByPidVid` over the interfaces still to enumerate. -/
def getDevNumByPidVid_loop (os : OS) (vid pid : Int) : List DiskInterface → Except Fault Nat
  | [] => .ok INVALID_DEVICE_NUMBER
  | d :: rest =>
    match vector_at_0 d.requiredSize with
    | .error e => .error e
    | .ok () =>
      if d.requiredSize = 0 then getDevNumByPidVid_loop os vid pid rest
      else
        match d.detail with
        | none => getDevNumByPidVid_loop os vid pid rest
        | some (devicePath, devInst) =>
          match os.CreateFileA devicePath with
          | none => getDevNumByPidVid_loop os vid pid rest
          | some hDrive =>
            match os.DeviceIoControl hDrive with
            | none => getDevNumByPidVid_loop os vid pid rest
            | some deviceNumber =>
              match os.CM_Get_Parent devInst with
              | none => getDevNumByPidVid_loop os vid pid rest
              | some parent =>
                match os.CM_Get_Device_IDA parent with
                | none => getDevNumByPidVid_loop os vid pid rest
                | some devInstId =>
                  if isSelectedUsbDevInst vid pid devInstId then .ok deviceNumber
                  else getDevNumByPidVid_loop os vid pid rest

/-- The function `getDevNumByPidVid(vid, pid)`. -/
def getDevNumByPidVid (os : OS) (vid pid : Int) : Except Fault Nat :=
  match os.SetupDiGetClassDevsA with
  | none => .ok INVALID_DEVICE_NUMBER
  | some interfaces => getDevNumByPidVid_loop os vid pid interfaces

/-! ## `getDevNumByDriveLetter`, `getDriveLetter`, `getPath` -/

/-- The function `getDevNumByDriveLetter(driveLetter)`. -/
def getDevNumByDriveLetter (os : OS) (driveLetter : Char) : Nat :=
  let volumeAccessPath := cstr ['\\', '\\', '.', '\\', driveLetter, ':', NUL]
  let devNum := INVALID_DEVICE_NUMBER
  match os.CreateFileA volumeAccessPath with
  | none => devNum
  | some hVolume =>
    match os.DeviceIoControl hVolume with
    | some deviceNumber => deviceNumber
    | none => devNum

/-- The loop of `getDriveLetter` over the characters of the buffer. -/
def getDriveLetter_loop (os : OS) (devNum : Nat) : List Char → Char
  | [] => NUL
  | c :: cs =>
    if !isDisk os c then getDriveLetter_loop os devNum cs
    else if devNum = getDevNumByDriveLetter os c then c
    else getDriveLetter_loop os devNum cs

/-- The buffer `buf` of `getDriveLetter` after the second call of
`GetLogicalDriveStringsA`, or `none` when the function returns before the
loop.  The buffer has `bufSize` characters, NUL where nothing was stored.
(The sums are `unsigned long` sums; a returned length is at most a few
hundred, so nothing wraps in a real state.) -/
def driveStringsBuffer (os : OS) : Option (List Char) :=
  let bufSize := ((os.GetLogicalDriveStringsA 0).1 + sizeof_NULL) % 2 ^ 32
  if bufSize ≤ 0 then none
  else
    let nBufferLength := (bufSize + 2 ^ 32 - sizeof_NULL) % 2 ^ 32
    let r := os.GetLogicalDriveStringsA nBufferLength
    let buf := (r.2.take nBufferLength ++ List.replicate bufSize NUL).take bufSize
    if r.1 ≤ 0 then none else some buf

/-- The function `getDriveLetter(vid, pid)`. -/
def getDriveLetter (os : OS) (vid pid : Int) : Except Fault Char :=
  match getDevNumByPidVid os vid pid with
  | .error e => .error e
  | .ok devNum =>
    match driveStringsBuffer os with
    | none => .ok NUL
    | some buf => .ok (getDriveLetter_loop os devNum buf)

/-- The call `memcpy_s(dest, destSize, src, count)`: the buffer afterwards, or
the constraint violation when the destination is too small. -/
def memcpy_s (dest : List Char) (destSize : Nat) (src : List Char) (count : Nat) :
    Except Fault (List Char) :=
  if count ≤ destSize then .ok (src.take count ++ dest.drop count)
  else .error .invalid_parameter

/-- The function `getPath(vid, pid, lpath, path)`: the buffer `path`
afterwards. -/
def getPath (os : OS) (vid pid : Int) (lpath : Nat) (path : List Char) :
    Except Fault (List Char) :=
  match getDriveLetter os vid pid with
  | .error e => .error e
  | .ok driveLetter =>
    let rootPath := [driveLetter, ':', '\\', NUL]
    memcpy_s path lpath rootPath 4

/-- The entry point `GetPath` once its two arguments have passed the checks
and have been converted to `int`: the string handed back to the caller. -/
def GetPath (os : OS) (vid pid : Int) : Except Fault (List Char) :=
  match getPath os vid pid MAX_PATH (List.replicate MAX_PATH NUL) with
  | .error e => .error e
  | .ok path => .ok (cstr path)

/-! ## The words of the specification about hardware identifiers -/

/-- The sixteen upper-case hexadecimal digits, in the order of their values. -/
def upperHexDigits : List Char :=
  ['0', '1', '2', '3', '4', '5', '6', '7', '8', '9', 'A', 'B', 'C', 'D', 'E', 'F']

/-- Specification side: the rendering `HEX4` of a 16-bit value as four
upper-case hexadecimal digits. -/
def HEX4 (v : Nat) : List Char :=
  [upperHexDigits.getD (v / 4096 % 16) '0', upperHexDigits.getD (v / 256 % 16) '0',
   upperHexDigits.getD (v / 16 % 16) '0', upperHexDigits.getD (v % 16) '0']

/-- Specification side: the number a string of upper-case hexadecimal digits
denotes. -/
def hexNumber (g : List Char) : Nat :=
  g.foldl (fun a c => 16 * a + upperHexDigits.indexOf c) 0

/-- Specification side: a string of the shape
`USB\VID_<4 upper-case hex digits>&PID_<4 upper-case hex digits>\`,
22 characters, given by its slices. -/
def isPatternOccurrence (w : List Char) : Bool :=
  decide (w.length = 22)
    && decide (w.take 8 = "USB\\VID_".toList)
    && ((w.drop 8).take 4).all (fun c => decide (c ∈ upperHexDigits))
    && decide ((w.drop 12).take 5 = "&PID_".toList)
    && ((w.drop 17).take 4).all (fun c => decide (c ∈ upperHexDigits))
    && decide (w.drop 21 = "\\".toList)

/-- Specification side: the pattern occurs in the text at position `i`. -/
def occursAt (t : List Char) (i : Nat) : Bool :=
  isPatternOccurrence ((t.drop i).take 22)

/-- Specification side: the number of occurrences of the pattern in a text. -/
def countOccurrences (t : List Char) : Nat :=
  (List.range t.length).countP (occursAt t)

/-- Specification side: the text contains a substring of the pattern's
shape. -/
def containsPattern (t : List Char) : Bool :=
  (List.range t.length).any (occursAt t)

/-- Four upper-case hexadecimal digits. -/
def IsHex4 (g : List Char) : Prop := g.length = 4 ∧ ∀ c ∈ g, c ∈ upperHexDigits

/-- The text of an occurrence with the two given groups. -/
def patternText (g1 g2 : List Char) : List Char :=
  litUsbVid ++ g1 ++ litPid ++ g2 ++ litEnd

/-- The sub-matches `regex_search` returns for an occurrence at position `i`. -/
def subMatchesAt (t : List Char) (i : Nat) : List (List Char) :=
  [(t.drop i).take 22, (t.drop (i + 8)).take 4, (t.drop (i + 17)).take 4]

/-! ## The words of the specification about drives and interfaces -/

/-- Specification side: the device name contains the floppy marker. -/
def containsFloppyMarker (name : List Char) : Prop :=
  ∃ pre post, name = pre ++ "\\Floppy".toList ++ post

/-- Specification side: the drive-type policy for a letter: its drive type is
fixed, or it is removable and its device name, when the system reports one,
does not contain the floppy marker. -/
def acceptedByPolicy (os : OS) (letter : Char) : Prop :=
  os.GetDriveTypeA [letter, ':', '\\'] = DRIVE_FIXED ∨
    (os.GetDriveTypeA [letter, ':', '\\'] = DRIVE_REMOVABLE ∧
      ∀ name, os.QueryDosDeviceA [letter, ':'] = some name →
        ¬ containsFloppyMarker (cstr name))

/-- Specification side: the first character of the buffer that passes
`isDisk` and whose `getDevNumByDriveLetter` result equals `t`. -/
def firstMatchingLetter (os : OS) (t : Nat) (buf : List Char) : Option Char :=
  buf.find? (fun c => isDisk os c && decide (getDevNumByDriveLetter os c = t))

/-- Specification side: the device number of a letter when the volume opens
and the device-number query succeeds; `none` when either fails. -/
def resolvedDevNum (os : OS) (letter : Char) : Option Nat :=
  (os.CreateFileA (cstr ['\\', '\\', '.', '\\', letter, ':', NUL])).bind os.DeviceIoControl

/-- Specification side: the first scanned character that passes `isDisk` and
whose device number was obtained and equals the target. -/
def firstResolvedLetter (os : OS) (target : Nat) (buf : List Char) : Option Char :=
  buf.find? (fun c => isDisk os c && decide (resolvedDevNum os c = some target))

/-- Specification side: the device number of an interface for which the
detail fetch, the open, the device-number query, the parent lookup and the
parent identifier fetch all succeed and whose parent identifier is selected
for `vid` and `pid`; `none` for any other interface. -/
def qualifyingNumber (os : OS) (vid pid : Int) (d : DiskInterface) : Option Nat :=
  d.detail.bind fun dp =>
    (os.CreateFileA dp.1).bind fun hDrive =>
      (os.DeviceIoControl hDrive).bind fun deviceNumber =>
        (os.CM_Get_Parent dp.2).bind fun parent =>
          (os.CM_Get_Device_IDA parent).bind fun devInstId =>
            if isSelectedUsbDevInst vid pid devInstId then some deviceNumber else none

/-- The interfaces the walk enumerates: none when the class query fails. -/
def interfaces (os : OS) : List DiskInterface :=
  os.SetupDiGetClassDevsA.getD []

/-! ## States of the system used in the examples -/

/-- The end-to-end scenario: two disks, the second one below the USB device
054C:0B94 with device number 7; drives `C:` (fixed, disk 0) and `F:`
(removable, not a floppy, disk 7). -/
def osScenario : OS where
  SetupDiGetClassDevsA := some
    [⟨64, some ("\\\\?\\scsi#disk0".toList, 1)⟩, ⟨64, some ("\\\\?\\usbstor#disk7".toList, 2)⟩]
  CreateFileA := fun path =>
    if path = "\\\\?\\scsi#disk0".toList then some 100
    else if path = "\\\\?\\usbstor#disk7".toList then some 107
    else if path = "\\\\.\\C:".toList then some 200
    else if path = "\\\\.\\F:".toList then some 207
    else none
  DeviceIoControl := fun h =>
    if h = 100 ∨ h = 200 then some 0 else if h = 107 ∨ h = 207 then some 7 else none
  CM_Get_Parent := fun d => if d = 1 then some 11 else if d = 2 then some 12 else none
  CM_Get_Device_IDA := fun d =>
    if d = 11 then some ("PCI\\VEN_8086&DEV_A102\\3&11583659".toList ++ [NUL])
    else if d = 12 then some ("USB\\VID_054C&PID_0B94\\6&abc".toList ++ [NUL])
    else none
  GetLogicalDriveStringsA := fun n =>
    if n ≤ 8 then (9, [])
    else (8, "C:\\".toList ++ [NUL] ++ "F:\\".toList ++ [NUL, NUL])
  GetDriveTypeA := fun root =>
    if root = "C:\\".toList then DRIVE_FIXED
    else if root = "F:\\".toList then DRIVE_REMOVABLE
    else 1
  QueryDosDeviceA := fun dev =>
    if dev = "C:".toList then some ("\\Device\\HarddiskVolume2".toList ++ [NUL, NUL])
    else if dev = "F:".toList then some ("\\Device\\HarddiskVolume9".toList ++ [NUL, NUL])
    else none

/-- The scenario with the removable drive at `E:`. -/
def osDriveE : OS where
  SetupDiGetClassDevsA := osScenario.SetupDiGetClassDevsA
  CreateFileA := fun path =>
    if path = "\\\\.\\E:".toList then some 207 else osScenario.CreateFileA path
  DeviceIoControl := osScenario.DeviceIoControl
  CM_Get_Parent := osScenario.CM_Get_Parent
  CM_Get_Device_IDA := osScenario.CM_Get_Device_IDA
  GetLogicalDriveStringsA := fun n =>
    if n ≤ 8 then (9, [])
    else (8, "C:\\".toList ++ [NUL] ++ "E:\\".toList ++ [NUL, NUL])
  GetDriveTypeA := fun root =>
    if root = "E:\\".toList then DRIVE_REMOVABLE else osScenario.GetDriveTypeA root
  QueryDosDeviceA := fun dev =>
    if dev = "E:".toList then some ("\\Device\\HarddiskVolume9".toList ++ [NUL, NUL])
    else osScenario.QueryDosDeviceA dev

/-- A state without any USB disk: one internal disk, and the fixed drive `C:`
is a volume that opens but does not answer the device-number query (as a
volume that spans several disks does). -/
def osNoUsbDisk : OS where
  SetupDiGetClassDevsA := some [⟨64, some ("\\\\?\\scsi#disk0".toList, 1)⟩]
  CreateFileA := fun path =>
    if path = "\\\\?\\scsi#disk0".toList then some 100
    else if path = "\\\\.\\C:".toList then some 200
    else none
  DeviceIoControl := fun h => if h = 100 then some 0 else none
  CM_Get_Parent := fun d => if d = 1 then some 11 else none
  CM_Get_Device_IDA := fun d =>
    if d = 11 then some ("PCI\\VEN_8086&DEV_A102\\3&11583659".toList ++ [NUL]) else none
  GetLogicalDriveStringsA := fun n =>
    if n ≤ 4 then (5, []) else (4, "C:\\".toList ++ [NUL, NUL])
  GetDriveTypeA := fun root => if root = "C:\\".toList then DRIVE_FIXED else 1
  QueryDosDeviceA := fun dev =>
    if dev = "C:".toList then some ("\\Device\\HarddiskVolume2".toList ++ [NUL, NUL])
    else none

/-- The scenario with one more interface enumerated first, for which the
sizing call stores no size. -/
def osZeroSize : OS where
  SetupDiGetClassDevsA := some
    [⟨0, none⟩, ⟨64, some ("\\\\?\\scsi#disk0".toList, 1)⟩,
      ⟨64, some ("\\\\?\\usbstor#disk7".toList, 2)⟩]
  CreateFileA := osScenario.CreateFileA
  DeviceIoControl := osScenario.DeviceIoControl
  CM_Get_Parent := osScenario.CM_Get_Parent
  CM_Get_Device_IDA := osScenario.CM_Get_Device_IDA
  GetLogicalDriveStringsA := osScenario.GetLogicalDriveStringsA
  GetDriveTypeA := osScenario.GetDriveTypeA
  QueryDosDeviceA := osScenario.QueryDosDeviceA

/-! ## Hardware identifiers: lemmas -/

theorem char_of_range (c : Char) (lo hi : Nat) (h1 : lo ≤ c.toNat) (h2 : c.toNat ≤ hi) :
    ∃ n, lo ≤ n ∧ n ≤ hi ∧ c = Char.ofNat n :=
  ⟨c.toNat, h1, h2, (Char.ofNat_toNat c).symm⟩

theorem mem_upperHexDigits_iff (c : Char) :
    c ∈ upperHexDigits ↔
      c = '0' ∨ c = '1' ∨ c = '2' ∨ c = '3' ∨ c = '4' ∨ c = '5' ∨ c = '6' ∨ c = '7' ∨
      c = '8' ∨ c = '9' ∨ c = 'A' ∨ c = 'B' ∨ c = 'C' ∨ c = 'D' ∨ c = 'E' ∨ c = 'F' := by
  simp only [upperHexDigits, List.mem_cons, List.mem_singleton, List.not_mem_nil, or_false]

theorem isUpperHex_iff (c : Char) : isUpperHex c = true ↔ c ∈ upperHexDigits := by
  constructor
  · intro h
    have h' : (48 ≤ c.toNat ∧ c.toNat ≤ 57) ∨ (65 ≤ c.toNat ∧ c.toNat ≤ 70) := by
      simp only [isUpperHex, Bool.or_eq_true, Bool.and_eq_true, decide_eq_true_eq,
        Char.le_def] at h
      exact h
    rcases h' with ⟨a, b⟩ | ⟨a, b⟩
    · obtain ⟨n, hn1, hn2, rfl⟩ := char_of_range c 48 57 a b
      interval_cases n <;> decide
    · obtain ⟨n, hn1, hn2, rfl⟩ := char_of_range c 65 70 a b
      interval_cases n <;> decide
  · intro h
    rw [mem_upperHexDigits_iff] at h
    rcases h with rfl | rfl | rfl | rfl | rfl | rfl | rfl | rfl | rfl | rfl | rfl | rfl |
      rfl | rfl | rfl | rfl <;> decide

theorem hexValue_of_mem (c : Char) (h : c ∈ upperHexDigits) :
    hexValue c = some (upperHexDigits.indexOf c) := by
  rw [mem_upperHexDigits_iff] at h
  rcases h with rfl | rfl | rfl | rfl | rfl | rfl | rfl | rfl | rfl | rfl | rfl | rfl |
    rfl | rfl | rfl | rfl <;> decide

theorem indexOf_upperHexDigits_lt (c : Char) (h : c ∈ upperHexDigits) :
    upperHexDigits.indexOf c < 16 := by
  rw [mem_upperHexDigits_iff] at h
  rcases h with rfl | rfl | rfl | rfl | rfl | rfl | rfl | rfl | rfl | rfl | rfl | rfl |
    rfl | rfl | rfl | rfl <;> decide

theorem getD_upperHexDigits (n : Nat) (h : n < 16) :
    upperHexDigits.getD n '0' ∈ upperHexDigits ∧
      upperHexDigits.indexOf (upperHexDigits.getD n '0') = n := by
  interval_cases n <;> decide

theorem dropLit_append (l r : List Char) : dropLit l (l ++ r) = some r := by
  induction l with
  | nil => cases r <;> rfl
  | cons a l ih => simp [dropLit, ih]

theorem dropLit_eq_some {l u r : List Char} (h : dropLit l u = some r) : u = l ++ r := by
  induction l generalizing u with
  | nil =>
    cases u <;> simp_all [dropLit]
  | cons a l ih =>
    cases u with
    | nil => simp [dropLit] at h
    | cons c cs =>
      simp only [dropLit] at h
      split at h
      · rename_i hac
        rw [hac, ih h]; rfl
      · cases h

theorem takeHex4_eq_some {u g r : List Char} (h : takeHex4 u = some (g, r)) :
    ∃ a b c d, g = [a, b, c, d] ∧ u = a :: b :: c :: d :: r ∧
      a ∈ upperHexDigits ∧ b ∈ upperHexDigits ∧ c ∈ upperHexDigits ∧ d ∈ upperHexDigits := by
  match u, h with
  | a :: b :: c :: d :: rest, h =>
    simp only [takeHex4] at h
    split at h
    · rename_i hx
      simp only [Bool.and_eq_true, isUpperHex_iff] at hx
      simp only [Option.some.injEq, Prod.mk.injEq] at h
      exact ⟨a, b, c, d, h.1.symm, by rw [h.2], hx.1.1.1, hx.1.1.2, hx.1.2, hx.2⟩
    · cases h
  | [], h => simp [takeHex4] at h
  | [_], h => simp [takeHex4] at h
  | [_, _], h => simp [takeHex4] at h
  | [_, _, _], h => simp [takeHex4] at h

theorem takeHex4_cons {a b c d : Char} (r : List Char) (ha : a ∈ upperHexDigits)
    (hb : b ∈ upperHexDigits) (hc : c ∈ upperHexDigits) (hd : d ∈ upperHexDigits) :
    takeHex4 (a :: b :: c :: d :: r) = some ([a, b, c, d], r) := by
  simp [takeHex4, isUpperHex_iff, ha, hb, hc, hd]

theorem isHex4_cases {g : List Char} (h : IsHex4 g) :
    ∃ a b c d, g = [a, b, c, d] ∧
      a ∈ upperHexDigits ∧ b ∈ upperHexDigits ∧ c ∈ upperHexDigits ∧ d ∈ upperHexDigits := by
  obtain ⟨hl, hm⟩ := h
  match g, hl with
  | [a, b, c, d], _ =>
    exact ⟨a, b, c, d, rfl, hm a (by simp), hm b (by simp), hm c (by simp), hm d (by simp)⟩

theorem isHex4_quad {a b c d : Char} (ha : a ∈ upperHexDigits) (hb : b ∈ upperHexDigits)
    (hc : c ∈ upperHexDigits) (hd : d ∈ upperHexDigits) : IsHex4 [a, b, c, d] := by
  refine ⟨rfl, ?_⟩
  intro x hx
  simp only [List.mem_cons, List.mem_singleton, List.not_mem_nil, or_false] at hx
  rcases hx with rfl | rfl | rfl | rfl <;> assumption

theorem takeHex4_eq_some_iff (u g r : List Char) :
    takeHex4 u = some (g, r) ↔ IsHex4 g ∧ u = g ++ r := by
  constructor
  · intro h
    obtain ⟨a, b, c, d, rfl, rfl, ha, hb, hc, hd⟩ := takeHex4_eq_some h
    exact ⟨isHex4_quad ha hb hc hd, rfl⟩
  · rintro ⟨hg, rfl⟩
    obtain ⟨a, b, c, d, rfl, ha, hb, hc, hd⟩ := isHex4_cases hg
    exact takeHex4_cons r ha hb hc hd

theorem matchHere_patternText (g1 g2 r : List Char) (h1 : IsHex4 g1) (h2 : IsHex4 g2) :
    matchHere (patternText g1 g2 ++ r) = some [patternText g1 g2, g1, g2] := by
  have e : patternText g1 g2 ++ r = litUsbVid ++ (g1 ++ (litPid ++ (g2 ++ (litEnd ++ r)))) := by
    simp [patternText, List.append_assoc]
  have t1 : takeHex4 (g1 ++ (litPid ++ (g2 ++ (litEnd ++ r)))) =
      some (g1, litPid ++ (g2 ++ (litEnd ++ r))) := (takeHex4_eq_some_iff _ _ _).2 ⟨h1, rfl⟩
  have t2 : takeHex4 (g2 ++ (litEnd ++ r)) = some (g2, litEnd ++ r) :=
    (takeHex4_eq_some_iff _ _ _).2 ⟨h2, rfl⟩
  rw [e]
  simp only [matchHere, dropLit_append, t1, t2]
  rfl

theorem matchHere_eq_some {u : List Char} {m : List (List Char)} (h : matchHere u = some m) :
    ∃ g1 g2 r, IsHex4 g1 ∧ IsHex4 g2 ∧ u = patternText g1 g2 ++ r ∧
      m = [patternText g1 g2, g1, g2] := by
  unfold matchHere at h
  split at h
  · cases h
  · rename_i t1 e1
    split at h
    · cases h
    · rename_i g1 t2 e2
      split at h
      · cases h
      · rename_i t3 e3
        split at h
        · cases h
        · rename_i g2 t4 e4
          split at h
          · cases h
          · rename_i t5 e5
            have a1 := dropLit_eq_some e1
            obtain ⟨hg1, a2⟩ := (takeHex4_eq_some_iff _ _ _).1 e2
            have a3 := dropLit_eq_some e3
            obtain ⟨hg2, a4⟩ := (takeHex4_eq_some_iff _ _ _).1 e4
            have a5 := dropLit_eq_some e5
            refine ⟨g1, g2, t5, hg1, hg2, ?_, ?_⟩
            · rw [a1, a2, a3, a4, a5]; simp [patternText, List.append_assoc]
            · simp only [Option.some.injEq] at h
              rw [← h]; rfl

theorem matchHere_eq_some_iff (u : List Char) (m : List (List Char)) :
    matchHere u = some m ↔
      ∃ g1 g2 r, IsHex4 g1 ∧ IsHex4 g2 ∧ u = patternText g1 g2 ++ r ∧
        m = [patternText g1 g2, g1, g2] := by
  constructor
  · exact matchHere_eq_some
  · rintro ⟨g1, g2, r, h1, h2, rfl, rfl⟩
    exact matchHere_patternText g1 g2 r h1 h2

theorem isPatternOccurrence_patternText (g1 g2 r : List Char) (h1 : IsHex4 g1)
    (h2 : IsHex4 g2) :
    isPatternOccurrence ((patternText g1 g2 ++ r).take 22) = true ∧
      (patternText g1 g2 ++ r).take 22 = patternText g1 g2 ∧
      ((patternText g1 g2 ++ r).drop 8).take 4 = g1 ∧
      ((patternText g1 g2 ++ r).drop 17).take 4 = g2 := by
  obtain ⟨a, b, c, d, rfl, ha, hb, hc, hd⟩ := isHex4_cases h1
  obtain ⟨e, f, g, h, rfl, he, hf, hg, hh⟩ := isHex4_cases h2
  refine ⟨?_, rfl, rfl, rfl⟩
  simp [isPatternOccurrence, patternText, litUsbVid, litPid, litEnd, ha, hb, hc, hd, he, hf,
    hg, hh]

theorem isPatternOccurrence_take {u : List Char}
    (h : isPatternOccurrence (u.take 22) = true) :
    ∃ g1 g2 r, IsHex4 g1 ∧ IsHex4 g2 ∧ u = patternText g1 g2 ++ r := by
  simp only [isPatternOccurrence, Bool.and_eq_true, decide_eq_true_eq, List.all_eq_true] at h
  obtain ⟨⟨⟨⟨⟨hlen, p1⟩, p2⟩, p3⟩, p4⟩, p5⟩ := h
  refine ⟨((u.take 22).drop 8).take 4, ((u.take 22).drop 17).take 4, u.drop 22, ⟨?_, p2⟩,
    ⟨?_, p4⟩, ?_⟩
  · simp only [List.length_take, List.length_drop] at hlen ⊢; omega
  · simp only [List.length_take, List.length_drop] at hlen ⊢; omega
  · have s1 : u.take 22 = (u.take 22).take 8 ++ (u.take 22).drop 8 :=
      (List.take_append_drop 8 _).symm
    have s2 : (u.take 22).drop 8 = ((u.take 22).drop 8).take 4 ++ (u.take 22).drop 12 := by
      conv_lhs => rw [← List.take_append_drop 4 ((u.take 22).drop 8)]
      rw [List.drop_drop]
    have s3 : (u.take 22).drop 12 = ((u.take 22).drop 12).take 5 ++ (u.take 22).drop 17 := by
      conv_lhs => rw [← List.take_append_drop 5 ((u.take 22).drop 12)]
      rw [List.drop_drop]
    have s4 : (u.take 22).drop 17 = ((u.take 22).drop 17).take 4 ++ (u.take 22).drop 21 := by
      conv_lhs => rw [← List.take_append_drop 4 ((u.take 22).drop 17)]
      rw [List.drop_drop]
    have s0 : u = u.take 22 ++ u.drop 22 := (List.take_append_drop 22 u).symm
    conv_lhs => rw [s0, s1, s2, s3, s4, p1, p3, p5]
    simp only [patternText, List.append_assoc]
    rfl

/-- The anchored match of the code succeeds exactly on the specification's
shape, and captures the two groups. -/
theorem matchHere_eq (u : List Char) :
    matchHere u =
      if isPatternOccurrence (u.take 22) = true
      then some [u.take 22, (u.drop 8).take 4, (u.drop 17).take 4] else none := by
  split
  · rename_i h
    obtain ⟨g1, g2, r, h1, h2, rfl⟩ := isPatternOccurrence_take h
    obtain ⟨-, e1, e2, e3⟩ := isPatternOccurrence_patternText g1 g2 r h1 h2
    rw [e1, e2, e3]
    exact matchHere_patternText g1 g2 r h1 h2
  · rename_i h
    cases e : matchHere u with
    | none => rfl
    | some m =>
      obtain ⟨g1, g2, r, h1, h2, rfl, -⟩ := matchHere_eq_some e
      exact absurd (isPatternOccurrence_patternText g1 g2 r h1 h2).1 h

theorem occursAt_nil (i : Nat) : occursAt [] i = false := by
  simp [occursAt, isPatternOccurrence]

theorem occursAt_cons_succ (c : Char) (cs : List Char) (i : Nat) :
    occursAt (c :: cs) (i + 1) = occursAt cs i := rfl

theorem subMatchesAt_cons_succ (c : Char) (cs : List Char) (i : Nat) :
    subMatchesAt (c :: cs) (i + 1) = subMatchesAt cs i := by
  simp only [subMatchesAt, Nat.add_right_comm i 1, List.drop_succ_cons]

/-- The search of the code finds nothing exactly when the pattern occurs
nowhere, and otherwise returns the sub-matches of the leftmost occurrence. -/
theorem regex_search_cases (t : List Char) :
    (regex_search t = [] ∧ ∀ i, occursAt t i = false) ∨
      ∃ i, occursAt t i = true ∧ (∀ j, j < i → occursAt t j = false) ∧
        regex_search t = subMatchesAt t i := by
  induction t with
  | nil => exact Or.inl ⟨rfl, occursAt_nil⟩
  | cons c cs ih =>
    by_cases h0 : isPatternOccurrence ((c :: cs).take 22) = true
    · refine Or.inr ⟨0, h0, fun j hj => absurd hj (Nat.not_lt_zero j), ?_⟩
      simp only [regex_search, matchHere_eq, h0, if_true]
      rfl
    · have hr : regex_search (c :: cs) = regex_search cs := by
        simp only [regex_search, matchHere_eq, h0, if_false, Bool.false_eq_true]
      have h0' : occursAt (c :: cs) 0 = false := by
        simpa [occursAt] using h0
      rcases ih with ⟨e, hn⟩ | ⟨i, hi, hlt, e⟩
      · refine Or.inl ⟨hr.trans e, ?_⟩
        intro i
        cases i with
        | zero => exact h0'
        | succ i => rw [occursAt_cons_succ]; exact hn i
      · refine Or.inr ⟨i + 1, ?_, ?_, ?_⟩
        · rw [occursAt_cons_succ]; exact hi
        · intro j hj
          cases j with
          | zero => exact h0'
          | succ j => rw [occursAt_cons_succ]; exact hlt j (by omega)
        · rw [hr, e, subMatchesAt_cons_succ]

theorem occursAt_groups {t : List Char} {i : Nat} (h : occursAt t i = true) :
    IsHex4 ((t.drop (i + 8)).take 4) ∧ IsHex4 ((t.drop (i + 17)).take 4) := by
  obtain ⟨g1, g2, r, h1, h2, e⟩ := isPatternOccurrence_take h
  obtain ⟨-, -, e2, e3⟩ := isPatternOccurrence_patternText g1 g2 r h1 h2
  rw [← e, List.drop_drop] at e2 e3
  rw [e2, e3]
  exact ⟨h1, h2⟩

theorem toInt32_of_lt (n : Nat) (h : n < 2 ^ 31) : toInt32 n = (n : Int) := by
  have h1 : n % 2 ^ 32 = n := Nat.mod_eq_of_lt (by omega)
  simp only [toInt32, h1, h, if_true]

/-- On a captured group `%x` reads the number the group denotes. -/
theorem sscanf_x_of_isHex4 {g : List Char} (h : IsHex4 g) :
    sscanf_x g = some ((hexNumber g : Nat) : Int) ∧ hexNumber g < 65536 := by
  obtain ⟨a, b, c, d, rfl, ha, hb, hc, hd⟩ := isHex4_cases h
  have la := indexOf_upperHexDigits_lt a ha
  have lb := indexOf_upperHexDigits_lt b hb
  have lc := indexOf_upperHexDigits_lt c hc
  have ld := indexOf_upperHexDigits_lt d hd
  have e : scanHexDigits (upperHexDigits.indexOf a) [b, c, d] = hexNumber [a, b, c, d] := by
    simp only [scanHexDigits, hexValue_of_mem b hb, hexValue_of_mem c hc, hexValue_of_mem d hd,
      hexNumber, List.foldl_cons, List.foldl_nil]
    omega
  have hlt : hexNumber [a, b, c, d] < 65536 := by
    simp only [hexNumber, List.foldl_cons, List.foldl_nil]
    omega
  refine ⟨?_, hlt⟩
  simp only [sscanf_x, hexValue_of_mem a ha, e]
  rw [toInt32_of_lt _ (by omega)]

theorem hexNumber_HEX4 (v : Nat) (h : v < 65536) : IsHex4 (HEX4 v) ∧ hexNumber (HEX4 v) = v := by
  have h3 := getD_upperHexDigits (v / 4096 % 16) (Nat.mod_lt _ (by decide))
  have h2 := getD_upperHexDigits (v / 256 % 16) (Nat.mod_lt _ (by decide))
  have h1 := getD_upperHexDigits (v / 16 % 16) (Nat.mod_lt _ (by decide))
  have h0 := getD_upperHexDigits (v % 16) (Nat.mod_lt _ (by decide))
  refine ⟨isHex4_quad h3.1 h2.1 h1.1 h0.1, ?_⟩
  simp only [hexNumber, HEX4, List.foldl_cons, List.foldl_nil, h3.2, h2.2, h1.2, h0.2]
  omega

/-- The decision of `isSelectedUsbDevInst` in the words of the specification:
the pattern occurs in the identifier, and the groups of its leftmost
occurrence denote `vid` and `pid`. -/
theorem isSelectedUsbDevInst_eq_true_iff (vid pid : Int) (instanceId : List Char) :
    isSelectedUsbDevInst vid pid instanceId = true ↔
      ∃ i, occursAt (cstr instanceId) i = true ∧
        (∀ j, j < i → occursAt (cstr instanceId) j = false) ∧
        vid = (hexNumber (((cstr instanceId).drop (i + 8)).take 4) : Nat) ∧
        pid = (hexNumber (((cstr instanceId).drop (i + 17)).take 4) : Nat) := by
  rcases regex_search_cases (cstr instanceId) with ⟨e, hn⟩ | ⟨i, hi, hlt, e⟩
  · constructor
    · intro h
      simp [isSelectedUsbDevInst, e] at h
    · rintro ⟨i, hi, -⟩
      rw [hn i] at hi
      cases hi
  · obtain ⟨g1, g2⟩ := occursAt_groups hi
    have s1 := (sscanf_x_of_isHex4 g1).1
    have s2 := (sscanf_x_of_isHex4 g2).1
    have hv : isSelectedUsbDevInst vid pid instanceId =
        (decide (vid = (hexNumber (((cstr instanceId).drop (i + 8)).take 4) : Nat)) &&
          decide (pid = (hexNumber (((cstr instanceId).drop (i + 17)).take 4) : Nat))) := by
      simp only [isSelectedUsbDevInst, e, subMatchesAt, List.length_cons, List.length_nil,
        List.getD_cons_succ, List.getD_cons_zero, s1, s2]
      simp
    rw [hv]
    constructor
    · intro h
      simp only [Bool.and_eq_true, decide_eq_true_eq] at h
      exact ⟨i, hi, hlt, h.1, h.2⟩
    · rintro ⟨k, hk, hklt, h1, h2⟩
      have hik : k = i := by
        rcases Nat.lt_trichotomy k i with h | h | h
        · rw [hlt k h] at hk; cases hk
        · exact h
        · rw [hklt i h] at hi; cases hi
      subst hik
      simp only [Bool.and_eq_true, decide_eq_true_eq]
      exact ⟨h1, h2⟩

theorem cstr_append_of_not_mem (a s : List Char) (h : NUL ∉ a) :
    cstr (a ++ s) = a ++ cstr s := by
  induction a with
  | nil => rfl
  | cons c cs ih =>
    have hc : c ≠ NUL := fun e => h (by simp [e])
    have hcs : NUL ∉ cs := fun e => h (by simp [e])
    simp [cstr, hc, ih hcs]

theorem nul_not_mem_upperHexDigits : NUL ∉ upperHexDigits := by decide

theorem nul_not_mem_patternText {g1 g2 : List Char} (h1 : IsHex4 g1) (h2 : IsHex4 g2) :
    NUL ∉ patternText g1 g2 := by
  intro h
  simp only [patternText, List.mem_append] at h
  rcases h with (((h | h) | h) | h) | h
  · revert h; decide
  · exact nul_not_mem_upperHexDigits (h1.2 _ h)
  · revert h; decide
  · exact nul_not_mem_upperHexDigits (h2.2 _ h)
  · revert h; decide

theorem occursAt_lt_length {t : List Char} {i : Nat} (h : occursAt t i = true) :
    i < t.length := by
  simp only [occursAt, isPatternOccurrence, Bool.and_eq_true, decide_eq_true_eq] at h
  have hl := h.1.1.1.1.1
  simp only [List.length_take, List.length_drop] at hl
  omega

theorem containsPattern_eq_false_iff (t : List Char) :
    containsPattern t = false ↔ ∀ i, occursAt t i = false := by
  constructor
  · intro h i
    by_contra hi
    have hi' : occursAt t i = true := by simpa using hi
    have hlt := occursAt_lt_length hi'
    have : containsPattern t = true := by
      simp only [containsPattern, List.any_eq_true, List.mem_range]
      exact ⟨i, hlt, hi'⟩
    rw [h] at this
    cases this
  · intro h
    cases e : containsPattern t with
    | false => rfl
    | true =>
      simp only [containsPattern, List.any_eq_true, List.mem_range] at e
      obtain ⟨i, -, hi⟩ := e
      rw [h i] at hi
      cases hi

/-- An identifier that starts with an occurrence is decided by that
occurrence. -/
theorem isSelectedUsbDevInst_patternText (vid pid : Int) (g1 g2 s : List Char)
    (h1 : IsHex4 g1) (h2 : IsHex4 g2) :
    isSelectedUsbDevInst vid pid (patternText g1 g2 ++ s) = true ↔
      vid = (hexNumber g1 : Nat) ∧ pid = (hexNumber g2 : Nat) := by
  have hc : cstr (patternText g1 g2 ++ s) = patternText g1 g2 ++ cstr s :=
    cstr_append_of_not_mem _ _ (nul_not_mem_patternText h1 h2)
  obtain ⟨o, -, e2, e3⟩ := isPatternOccurrence_patternText g1 g2 (cstr s) h1 h2
  have o0 : occursAt (patternText g1 g2 ++ cstr s) 0 = true := o
  rw [isSelectedUsbDevInst_eq_true_iff, hc]
  constructor
  · rintro ⟨i, hi, hlt, hv, hp⟩
    have i0 : i = 0 := by
      by_contra hne
      have := hlt 0 (Nat.pos_of_ne_zero hne)
      rw [o0] at this
      cases this
    subst i0
    simp only [Nat.zero_add] at hv hp
    rw [e2] at hv
    rw [e3] at hp
    exact ⟨hv, hp⟩
  · rintro ⟨hv, hp⟩
    refine ⟨0, o0, fun j hj => absurd hj (Nat.not_lt_zero j), ?_, ?_⟩
    · simp only [Nat.zero_add]; rw [e2]; exact hv
    · simp only [Nat.zero_add]; rw [e3]; exact hp

/-! ## Hardware identifiers: the claims -/

/-- C4: for 16-bit values `v` and `p` and every suffix `s` (NUL-free or not),
the identifier `USB\VID_` `HEX4 v` `&PID_` `HEX4 p` `\` `s` is selected for
`vid` and `pid` if and only if `vid = v` and `pid = p`. -/
theorem isSelectedUsbDevInst_rendered_iff (v p : Nat) (hv : v < 65536) (hp : p < 65536)
    (s : List Char) (vid pid : Int) :
    isSelectedUsbDevInst vid pid
        ("USB\\VID_".toList ++ HEX4 v ++ "&PID_".toList ++ HEX4 p ++ "\\".toList ++ s) = true ↔
      vid = (v : Int) ∧ pid = (p : Int) := by
  obtain ⟨g1, n1⟩ := hexNumber_HEX4 v hv
  obtain ⟨g2, n2⟩ := hexNumber_HEX4 p hp
  have h := isSelectedUsbDevInst_patternText vid pid (HEX4 v) (HEX4 p) s g1 g2
  rw [n1, n2] at h
  exact h

/-- The two examples of C4: `USB\VID_054C&PID_0B94\6&abc` is selected for
(0x054C, 0x0B94) and `USB\VID_054C&PID_0B95\6&abc` is not. -/
theorem isSelectedUsbDevInst_rendered_iff_witness :
    (0x054C < 65536 ∧ 0x0B94 < 65536 ∧ 0x0B95 < 65536) ∧
      "USB\\VID_".toList ++ HEX4 0x054C ++ "&PID_".toList ++ HEX4 0x0B94 ++ "\\".toList
          ++ "6&abc".toList = "USB\\VID_054C&PID_0B94\\6&abc".toList ∧
      "USB\\VID_".toList ++ HEX4 0x054C ++ "&PID_".toList ++ HEX4 0x0B95 ++ "\\".toList
          ++ "6&abc".toList = "USB\\VID_054C&PID_0B95\\6&abc".toList ∧
      isSelectedUsbDevInst 0x054C 0x0B94
        ("USB\\VID_".toList ++ HEX4 0x054C ++ "&PID_".toList ++ HEX4 0x0B94 ++ "\\".toList
          ++ "6&abc".toList) = true ∧
      ¬ isSelectedUsbDevInst 0x054C 0x0B94
        ("USB\\VID_".toList ++ HEX4 0x054C ++ "&PID_".toList ++ HEX4 0x0B95 ++ "\\".toList
          ++ "6&abc".toList) = true :=
  ⟨by decide, by decide, by decide,
    (isSelectedUsbDevInst_rendered_iff 0x054C 0x0B94 (by decide) (by decide)
      "6&abc".toList 0x054C 0x0B94).2 ⟨by decide, by decide⟩,
    fun h => absurd
      ((isSelectedUsbDevInst_rendered_iff 0x054C 0x0B95 (by decide) (by decide)
        "6&abc".toList 0x054C 0x0B94).1 h).2 (by decide)⟩

/-- C5: an identifier string that contains no substring of the shape
`USB\VID_<4 upper-case hex digits>&PID_<4 upper-case hex digits>\` is selected
for no `vid` and `pid`; the function returns `false` (it is total, nothing is
raised). -/
theorem isSelectedUsbDevInst_of_not_containsPattern (instanceId : List Char)
    (h : containsPattern (cstr instanceId) = false) (vid pid : Int) :
    isSelectedUsbDevInst vid pid instanceId = false := by
  cases e : isSelectedUsbDevInst vid pid instanceId with
  | false => rfl
  | true =>
    obtain ⟨i, hi, -⟩ := (isSelectedUsbDevInst_eq_true_iff vid pid instanceId).1 e
    rw [(containsPattern_eq_false_iff _).1 h i] at hi
    cases hi

/-- Examples of C5: lower-case digits, three digits, five digits, no final
backslash. -/
theorem isSelectedUsbDevInst_of_not_containsPattern_witness :
    (containsPattern (cstr "USB\\VID_054c&PID_0b94\\6&abc".toList) = false ∧
      isSelectedUsbDevInst 0x054C 0x0B94 "USB\\VID_054c&PID_0b94\\6&abc".toList = false) ∧
    (containsPattern (cstr "USB\\VID_54C&PID_B94\\6&abc".toList) = false ∧
      isSelectedUsbDevInst 0x054C 0x0B94 "USB\\VID_54C&PID_B94\\6&abc".toList = false) ∧
    (containsPattern (cstr "USB\\VID_0054C&PID_00B94\\6&abc".toList) = false ∧
      isSelectedUsbDevInst 0x054C 0x0B94 "USB\\VID_0054C&PID_00B94\\6&abc".toList = false) ∧
    (containsPattern (cstr "USB\\VID_054C&PID_0B94".toList) = false ∧
      isSelectedUsbDevInst 0x054C 0x0B94 "USB\\VID_054C&PID_0B94".toList = false) :=
  ⟨⟨by decide, isSelectedUsbDevInst_of_not_containsPattern _ (by decide) _ _⟩,
    ⟨by decide, isSelectedUsbDevInst_of_not_containsPattern _ (by decide) _ _⟩,
    ⟨by decide, isSelectedUsbDevInst_of_not_containsPattern _ (by decide) _ _⟩,
    ⟨by decide, isSelectedUsbDevInst_of_not_containsPattern _ (by decide) _ _⟩⟩

/-- C6, as the specification states it, fails: this identifier holds two
occurrences of the pattern and is selected for (0x054C, 0x0B94). -/
theorem isSelectedUsbDevInst_two_occurrences :
    countOccurrences "USB\\VID_054C&PID_0B94\\USB\\VID_1234&PID_5678\\".toList = 2 ∧
      isSelectedUsbDevInst 0x054C 0x0B94
        "USB\\VID_054C&PID_0B94\\USB\\VID_1234&PID_5678\\".toList = true := by
  decide

/-- C6, amended: `isSelectedUsbDevInst` returns `true` exactly when the
identifier string holds at least one occurrence of the pattern and the two
groups of the leftmost occurrence denote `vid` and `pid`; occurrences further
right play no part. -/
theorem isSelectedUsbDevInst_iff_leftmost (vid pid : Int) (instanceId : List Char) :
    isSelectedUsbDevInst vid pid instanceId = true ↔
      ∃ i, occursAt (cstr instanceId) i = true ∧
        (∀ j, j < i → occursAt (cstr instanceId) j = false) ∧
        vid = (hexNumber (((cstr instanceId).drop (i + 8)).take 4) : Nat) ∧
        pid = (hexNumber (((cstr instanceId).drop (i + 17)).take 4) : Nat) :=
  isSelectedUsbDevInst_eq_true_iff vid pid instanceId

/-! ## Drives: lemmas -/

theorem strstr_iff (hay needle : List Char) :
    strstr hay needle = true ↔ ∃ pre post, hay = pre ++ needle ++ post := by
  induction hay with
  | nil =>
    simp only [strstr, Option.isSome_iff_exists]
    constructor
    · rintro ⟨r, hr⟩
      exact ⟨[], r, by simpa using dropLit_eq_some hr⟩
    · rintro ⟨pre, post, h⟩
      have h' := h.symm
      simp only [List.append_eq_nil] at h'
      obtain ⟨⟨-, rfl⟩, -⟩ := h'
      exact ⟨[], rfl⟩
  | cons c cs ih =>
    simp only [strstr, Bool.or_eq_true, Option.isSome_iff_exists, ih]
    constructor
    · rintro (⟨r, hr⟩ | ⟨pre, post, h⟩)
      · exact ⟨[], r, by simpa using dropLit_eq_some hr⟩
      · exact ⟨c :: pre, post, by rw [h]; rfl⟩
    · rintro ⟨pre, post, h⟩
      cases pre with
      | nil =>
        left
        refine ⟨post, ?_⟩
        rw [h]
        simpa using dropLit_append needle post
      | cons x pre =>
        right
        simp only [List.cons_append, List.cons.injEq] at h
        exact ⟨pre, post, h.2⟩

theorem cstr_letter3 (c : Char) (hc : c ≠ NUL) : cstr [c, ':', '\\', NUL] = [c, ':', '\\'] := by
  have h1 : ':' ≠ NUL := by decide
  have h2 : '\\' ≠ NUL := by decide
  simp [cstr, hc, h1, h2]

theorem cstr_letter2 (c : Char) (hc : c ≠ NUL) : cstr [c, ':', NUL] = [c, ':'] := by
  have h1 : ':' ≠ NUL := by decide
  simp [cstr, hc, h1]

theorem isFloppy_eq_true_iff (os : OS) (c : Char) (hc : c ≠ NUL) :
    isFloppy os c = true ↔
      ∃ name, os.QueryDosDeviceA [c, ':'] = some name ∧ containsFloppyMarker (cstr name) := by
  simp only [isFloppy, cstr_letter2 c hc]
  cases e : os.QueryDosDeviceA [c, ':'] with
  | none => simp
  | some name =>
    simp only [strstr_iff, Option.some.injEq, exists_eq_left', containsFloppyMarker]
    rfl

/-- The code's test `isDisk` is the drive-type policy of the specification. -/
theorem isDisk_iff_acceptedByPolicy (os : OS) (c : Char) (hc : c ≠ NUL) :
    isDisk os c = true ↔ acceptedByPolicy os c := by
  have hf := isFloppy_eq_true_iff os c hc
  have hne : DRIVE_REMOVABLE ≠ DRIVE_FIXED := by decide
  simp only [isDisk, cstr_letter3 c hc, acceptedByPolicy]
  by_cases h2 : os.GetDriveTypeA [c, ':', '\\'] = DRIVE_REMOVABLE
  · constructor
    · intro h
      refine Or.inr ⟨h2, ?_⟩
      intro name hn hm
      have hfl : isFloppy os c = true := hf.2 ⟨name, hn, hm⟩
      simp [h2, hfl] at h
    · rintro (h | ⟨-, h⟩)
      · exact absurd (h2.symm.trans h) hne
      · have hfl : isFloppy os c = false := by
          cases e : isFloppy os c with
          | false => rfl
          | true =>
            obtain ⟨name, hn, hm⟩ := hf.1 e
            exact absurd hm (h name hn)
        simp [h2, hfl]
  · by_cases h3 : os.GetDriveTypeA [c, ':', '\\'] = DRIVE_FIXED
    · constructor
      · intro _
        exact Or.inl h3
      · intro _
        rw [if_neg h2, if_pos h3]
    · constructor
      · intro h
        simp [h2, h3] at h
      · rintro (h | ⟨h, -⟩)
        · exact absurd h h3
        · exact absurd h h2

theorem getDriveLetter_loop_eq (os : OS) (devNum : Nat) (buf : List Char) :
    getDriveLetter_loop os devNum buf = (firstMatchingLetter os devNum buf).getD NUL := by
  induction buf with
  | nil => rfl
  | cons c cs ih =>
    simp only [getDriveLetter_loop, firstMatchingLetter, List.find?_cons]
    cases hd : isDisk os c with
    | false =>
      simp only [Bool.not_false, if_true, Bool.false_and]
      exact ih
    | true =>
      by_cases he : devNum = getDevNumByDriveLetter os c
      · simp [he]
      · have he' : ¬ getDevNumByDriveLetter os c = devNum := fun h => he h.symm
        simp only [Bool.not_true, Bool.false_eq_true, if_false, he, Bool.true_and, he',
          decide_False]
        exact ih

theorem getDevNumByDriveLetter_eq (os : OS) (c : Char) :
    getDevNumByDriveLetter os c = (resolvedDevNum os c).getD INVALID_DEVICE_NUMBER := by
  simp only [getDevNumByDriveLetter, resolvedDevNum]
  cases os.CreateFileA (cstr ['\\', '\\', '.', '\\', c, ':', NUL]) with
  | none => rfl
  | some h =>
    simp only [Option.some_bind]
    cases os.DeviceIoControl h <;> rfl

/-- For a target other than the sentinel, the loop of `getDriveLetter` returns
the first scanned character that passes `isDisk` and whose device number was
obtained and equals the target, and NUL when there is none. -/
theorem getDriveLetter_loop_of_ne_sentinel (os : OS) (target : Nat)
    (ht : target ≠ INVALID_DEVICE_NUMBER) (buf : List Char) :
    getDriveLetter_loop os target buf = (firstResolvedLetter os target buf).getD NUL := by
  rw [getDriveLetter_loop_eq]
  have hp : (fun c => isDisk os c && decide (getDevNumByDriveLetter os c = target)) =
      (fun c => isDisk os c && decide (resolvedDevNum os c = some target)) := by
    funext c
    rw [getDevNumByDriveLetter_eq]
    cases e : resolvedDevNum os c with
    | none =>
      have : ¬ INVALID_DEVICE_NUMBER = target := fun h => ht h.symm
      simp [this]
    | some n => simp
  simp only [firstMatchingLetter, firstResolvedLetter, hp]

theorem getDriveLetter_loop_mem (os : OS) (devNum : Nat) (buf : List Char) :
    getDriveLetter_loop os devNum buf = NUL ∨
      (getDriveLetter_loop os devNum buf ∈ buf ∧
        isDisk os (getDriveLetter_loop os devNum buf) = true ∧
        getDevNumByDriveLetter os (getDriveLetter_loop os devNum buf) = devNum) := by
  rw [getDriveLetter_loop_eq]
  cases e : firstMatchingLetter os devNum buf with
  | none => exact Or.inl rfl
  | some c =>
    right
    have h1 := List.find?_some e
    have h2 := List.mem_of_find?_eq_some e
    simp only [Bool.and_eq_true, decide_eq_true_eq] at h1
    exact ⟨h2, h1.1, h1.2⟩

theorem cstr_rootPath (c : Char) (rest : List Char) :
    cstr ([c, ':', '\\', NUL] ++ rest) = if c = NUL then [] else [c, ':', '\\'] := by
  have h1 : ':' ≠ NUL := by decide
  have h2 : '\\' ≠ NUL := by decide
  by_cases hc : c = NUL
  · simp [cstr, hc]
  · simp [cstr, hc, h1, h2]

theorem getPath_of_getDriveLetter (os : OS) (vid pid : Int) (lpath : Nat) (path : List Char)
    (c : Char) (hl : 4 ≤ lpath) (hc : getDriveLetter os vid pid = .ok c) :
    getPath os vid pid lpath path = .ok ([c, ':', '\\', NUL] ++ path.drop 4) := by
  simp only [getPath, hc, memcpy_s, hl, if_true]
  rfl

theorem getDriveLetter_isDisk (os : OS) (vid pid : Int) (c : Char)
    (h : getDriveLetter os vid pid = .ok c) (hc : c ≠ NUL) : isDisk os c = true := by
  unfold getDriveLetter at h
  split at h
  · cases h
  · rename_i devNum _
    split at h
    · simp only [Except.ok.injEq] at h
      exact absurd h.symm hc
    · rename_i buf _
      simp only [Except.ok.injEq] at h
      rcases getDriveLetter_loop_mem os devNum buf with e | ⟨-, e, -⟩
      · rw [h] at e
        exact absurd e hc
      · rw [h] at e
        exact e

theorem getPath_ok_of_GetPath (os : OS) (vid pid : Int) (s : List Char)
    (h : GetPath os vid pid = .ok s) :
    ∃ c, getDriveLetter os vid pid = .ok c ∧ s = if c = NUL then [] else [c, ':', '\\'] := by
  unfold GetPath at h
  split at h
  · cases h
  · rename_i path hp
    simp only [Except.ok.injEq] at h
    unfold getPath at hp
    split at hp
    · cases hp
    · rename_i c hc
      have h4 : 4 ≤ MAX_PATH := by decide
      simp only [memcpy_s, h4, if_true, Except.ok.injEq] at hp
      refine ⟨c, hc, ?_⟩
      rw [← h, ← hp]
      exact cstr_rootPath c _

theorem getDevNumByPidVid_loop_cons (os : OS) (vid pid : Int) (d : DiskInterface)
    (rest : List DiskInterface) (hd : d.requiredSize ≠ 0) :
    getDevNumByPidVid_loop os vid pid (d :: rest) =
      match qualifyingNumber os vid pid d with
      | some n => .ok n
      | none => getDevNumByPidVid_loop os vid pid rest := by
  have hpos : 0 < d.requiredSize := Nat.pos_of_ne_zero hd
  simp only [getDevNumByPidVid_loop, vector_at_0, hpos, if_true, hd, if_false, qualifyingNumber]
  cases d.detail with
  | none => rfl
  | some dp =>
    obtain ⟨devicePath, devInst⟩ := dp
    simp only [Option.some_bind]
    cases os.CreateFileA devicePath with
    | none => rfl
    | some hDrive =>
      simp only [Option.some_bind]
      cases os.DeviceIoControl hDrive with
      | none => rfl
      | some deviceNumber =>
        simp only [Option.some_bind]
        cases os.CM_Get_Parent devInst with
        | none => rfl
        | some parent =>
          simp only [Option.some_bind]
          cases os.CM_Get_Device_IDA parent with
          | none => rfl
          | some devInstId =>
            simp only [Option.some_bind]
            cases isSelectedUsbDevInst vid pid devInstId <;> rfl

theorem getDevNumByPidVid_loop_eq (os : OS) (vid pid : Int) (ds : List DiskInterface)
    (h : ∀ d ∈ ds, d.requiredSize ≠ 0) :
    getDevNumByPidVid_loop os vid pid ds =
      .ok ((ds.findSome? (qualifyingNumber os vid pid)).getD INVALID_DEVICE_NUMBER) := by
  induction ds with
  | nil => rfl
  | cons d rest ih =>
    rw [getDevNumByPidVid_loop_cons os vid pid d rest (h d (by simp))]
    simp only [List.findSome?_cons]
    cases qualifyingNumber os vid pid d with
    | some n => rfl
    | none => exact ih (fun x hx => h x (by simp [hx]))

theorem getDevNumByPidVid_loop_append (os : OS) (vid pid : Int)
    (pre : List DiskInterface) (d : DiskInterface) (post : List DiskInterface) (n : Nat)
    (hpre : ∀ x ∈ pre, x.requiredSize ≠ 0 ∧ qualifyingNumber os vid pid x = none)
    (hd : d.requiredSize ≠ 0) (hq : qualifyingNumber os vid pid d = some n) :
    getDevNumByPidVid_loop os vid pid (pre ++ d :: post) = .ok n := by
  induction pre with
  | nil =>
    rw [List.nil_append, getDevNumByPidVid_loop_cons os vid pid d post hd, hq]
  | cons x pre ih =>
    rw [List.cons_append, getDevNumByPidVid_loop_cons os vid pid x _ (hpre x (by simp)).1,
      (hpre x (by simp)).2]
    exact ih (fun y hy => hpre y (by simp [hy]))

theorem getDevNumByPidVid_eq_loop (os : OS) (vid pid : Int) :
    getDevNumByPidVid os vid pid = getDevNumByPidVid_loop os vid pid (interfaces os) := by
  simp only [getDevNumByPidVid, interfaces]
  cases os.SetupDiGetClassDevsA <;> rfl

/-! ## Drives and interfaces: the claims -/

/-- C1, evaluated where the code departs from it: in the state `osNoUsbDisk`
the walk finds no disk for 054C:0B94 and returns the sentinel, the fixed drive
`C:` does not answer the device-number query, and the resolution returns
`C:\` instead of the empty string. -/
theorem GetPath_without_matching_disk :
    getDevNumByPidVid osNoUsbDisk 0x054C 0x0B94 = .ok INVALID_DEVICE_NUMBER ∧
      (interfaces osNoUsbDisk).findSome? (qualifyingNumber osNoUsbDisk 0x054C 0x0B94) = none ∧
      getDriveLetter osNoUsbDisk 0x054C 0x0B94 = .ok 'C' ∧
      GetPath osNoUsbDisk 0x054C 0x0B94 = .ok "C:\\".toList :=
  ⟨rfl, rfl, rfl, rfl⟩

/-- C2: when the walk returns `t` for (vid, pid) and `L` is the first
character of the buffer of logical drive strings that passes `isDisk` and
whose `getDevNumByDriveLetter` result equals `t`, then `getPath` (with room
for the four bytes) stores `L`, `:`, `\` and the terminating NUL at the start
of `path`; for a letter other than NUL the string returned is `L:\`. -/
theorem getPath_of_firstMatchingLetter (os : OS) (vid pid : Int) (t : Nat) (L : Char)
    (buf : List Char) (lpath : Nat) (path : List Char)
    (hw : getDevNumByPidVid os vid pid = .ok t)
    (hb : driveStringsBuffer os = some buf)
    (hL : firstMatchingLetter os t buf = some L)
    (hl : 4 ≤ lpath) :
    getPath os vid pid lpath path = .ok ([L, ':', '\\', NUL] ++ path.drop 4) ∧
      (L ≠ NUL → GetPath os vid pid = .ok [L, ':', '\\']) := by
  have hd : getDriveLetter os vid pid = .ok L := by
    simp only [getDriveLetter, hw, hb, getDriveLetter_loop_eq, hL, Option.getD_some]
  refine ⟨getPath_of_getDriveLetter os vid pid lpath path L hl hd, ?_⟩
  intro hne
  have h4 : 4 ≤ MAX_PATH := by decide
  simp only [GetPath, getPath_of_getDriveLetter os vid pid MAX_PATH _ L h4 hd, cstr_rootPath,
    hne, if_false]

/-- The scenario of C2: 054C:0B94 is disk 7, `F:` is removable, not a floppy
and on disk 7; the path is `F:\`. -/
theorem getPath_of_firstMatchingLetter_witness :
    getDevNumByPidVid osScenario 0x054C 0x0B94 = .ok 7 ∧
      driveStringsBuffer osScenario =
        some ("C:\\".toList ++ [NUL] ++ "F:\\".toList ++ List.replicate 6 NUL) ∧
      firstMatchingLetter osScenario 7
        ("C:\\".toList ++ [NUL] ++ "F:\\".toList ++ List.replicate 6 NUL) = some 'F' ∧
      isDisk osScenario 'F' = true ∧ isFloppy osScenario 'F' = false ∧
      GetPath osScenario 0x054C 0x0B94 = .ok "F:\\".toList :=
  ⟨rfl, rfl, rfl, rfl, rfl,
    (getPath_of_firstMatchingLetter osScenario 0x054C 0x0B94 7 'F'
      ("C:\\".toList ++ [NUL] ++ "F:\\".toList ++ List.replicate 6 NUL) MAX_PATH
      (List.replicate MAX_PATH NUL) rfl rfl rfl (by decide)).2 (by decide)⟩

/-- C3: when the resolution returns a non-empty string, that string is a
letter `L` followed by `:\`, and `L` is accepted by the drive-type policy: its
drive type is fixed, or it is removable and its device name does not contain
`\Floppy`.  A drive of any other type, or a floppy, is never returned,
whatever its device number. -/
theorem GetPath_letter_acceptedByPolicy (os : OS) (vid pid : Int) (L : Char)
    (rest : List Char) (h : GetPath os vid pid = .ok (L :: rest)) :
    rest = [':', '\\'] ∧ acceptedByPolicy os L ∧
      os.GetDriveTypeA [L, ':', '\\'] ≠ DRIVE_CDROM := by
  obtain ⟨c, hc, hs⟩ := getPath_ok_of_GetPath os vid pid _ h
  by_cases hn : c = NUL
  · simp [hn] at hs
  · simp only [hn, if_false, List.cons.injEq] at hs
    obtain ⟨rfl, rfl⟩ := hs
    have hp := (isDisk_iff_acceptedByPolicy os L hn).1 (getDriveLetter_isDisk os vid pid L hc hn)
    refine ⟨rfl, hp, ?_⟩
    rcases hp with h3 | ⟨h2, -⟩
    · rw [h3]; decide
    · rw [h2]; decide

/-- An instance of C3: the drive `F:` of the scenario. -/
theorem GetPath_letter_acceptedByPolicy_witness :
    GetPath osScenario 0x054C 0x0B94 = .ok ('F' :: [':', '\\']) ∧
      acceptedByPolicy osScenario 'F' :=
  ⟨rfl, (GetPath_letter_acceptedByPolicy osScenario 0x054C 0x0B94 'F' [':', '\\'] rfl).2.1⟩

/-- C7: with an output buffer of at least 4 bytes, `getPath` succeeds; for a
drive letter `c` other than NUL the C string it leaves in `path` is exactly
`c`, `:`, `\`, and for the NUL sentinel the C string is empty. -/
theorem getPath_cstr (os : OS) (vid pid : Int) (lpath : Nat) (path : List Char) (c : Char)
    (hl : 4 ≤ lpath) (hc : getDriveLetter os vid pid = .ok c) :
    ∃ buf, getPath os vid pid lpath path = .ok buf ∧
      (c ≠ NUL → cstr buf = [c, ':', '\\']) ∧ (c = NUL → cstr buf = []) := by
  refine ⟨_, getPath_of_getDriveLetter os vid pid lpath path c hl hc, ?_, ?_⟩
  · intro hne
    rw [cstr_rootPath, if_neg hne]
  · intro he
    rw [cstr_rootPath, if_pos he]

/-- The examples of C7: the letter `E` gives `E:\`, the sentinel gives the
empty string. -/
theorem getPath_cstr_witness :
    (getDriveLetter osDriveE 0x054C 0x0B94 = .ok 'E' ∧
      ∃ buf, getPath osDriveE 0x054C 0x0B94 4 [NUL, NUL, NUL, NUL] = .ok buf ∧
        cstr buf = "E:\\".toList) ∧
    (getDriveLetter osScenario 0x1234 0x5678 = .ok NUL ∧
      ∃ buf, getPath osScenario 0x1234 0x5678 4 [NUL, NUL, NUL, NUL] = .ok buf ∧
        cstr buf = "".toList) :=
  ⟨⟨rfl, by
      obtain ⟨buf, h1, h2, -⟩ := getPath_cstr osDriveE 0x054C 0x0B94 4 [NUL, NUL, NUL, NUL] 'E'
        (by decide) rfl
      exact ⟨buf, h1, h2 (by decide)⟩⟩,
    ⟨rfl, by
      obtain ⟨buf, h1, -, h3⟩ := getPath_cstr osScenario 0x1234 0x5678 4 [NUL, NUL, NUL, NUL] NUL
        (by decide) rfl
      exact ⟨buf, h1, h3 rfl⟩⟩⟩

/-- C8, evaluated where the code departs from it: with the sentinel as target
(what the walk returns when it finds nothing), the scan over the buffer of
`osNoUsbDisk` returns `C`, a letter whose device-number query failed, although
no scanned character has an obtained device number equal to the target. -/
theorem getDriveLetter_loop_sentinel_target :
    driveStringsBuffer osNoUsbDisk = some ("C:\\".toList ++ List.replicate 6 NUL) ∧
      isDisk osNoUsbDisk 'C' = true ∧
      resolvedDevNum osNoUsbDisk 'C' = none ∧
      firstResolvedLetter osNoUsbDisk INVALID_DEVICE_NUMBER
        ("C:\\".toList ++ List.replicate 6 NUL) = none ∧
      getDriveLetter_loop osNoUsbDisk INVALID_DEVICE_NUMBER
        ("C:\\".toList ++ List.replicate 6 NUL) = 'C' :=
  ⟨rfl, rfl, rfl, rfl, rfl⟩

/-- C9, evaluated where the code departs from it: in `osZeroSize` the first
interface has a required size of 0, and the walk ends with the exception
`std::out_of_range` instead of skipping it; without that interface
(`osScenario`) the walk returns device number 7. -/
theorem getDevNumByPidVid_zero_size :
    getDevNumByPidVid osZeroSize 0x054C 0x0B94 = .error Fault.out_of_range ∧
      GetPath osZeroSize 0x054C 0x0B94 = .error Fault.out_of_range ∧
      getDevNumByPidVid osScenario 0x054C 0x0B94 = .ok 7 :=
  ⟨rfl, rfl, rfl⟩

/-- C10: when every sizing query reports a non-zero size, the walk returns
the device number of the first interface, in enumeration order, for which all
steps succeed and whose parent identifier is selected; the interfaces after
it play no part; when no interface qualifies the result is the sentinel
`0xFFFFFFFF`. -/
theorem getDevNumByPidVid_first_qualifying (os : OS) (vid pid : Int)
    (hsz : ∀ d ∈ interfaces os, d.requiredSize ≠ 0) :
    getDevNumByPidVid os vid pid =
        .ok (((interfaces os).findSome? (qualifyingNumber os vid pid)).getD
          INVALID_DEVICE_NUMBER) ∧
      (∀ pre d post n, interfaces os = pre ++ d :: post →
        (∀ x ∈ pre, qualifyingNumber os vid pid x = none) →
        qualifyingNumber os vid pid d = some n →
        getDevNumByPidVid os vid pid = .ok n) ∧
      ((∀ d ∈ interfaces os, qualifyingNumber os vid pid d = none) →
        getDevNumByPidVid os vid pid = .ok 0xFFFFFFFF) := by
  refine ⟨?_, ?_, ?_⟩
  · rw [getDevNumByPidVid_eq_loop]
    exact getDevNumByPidVid_loop_eq os vid pid _ hsz
  · intro pre d post n he hpre hq
    rw [getDevNumByPidVid_eq_loop, he]
    rw [he] at hsz
    exact getDevNumByPidVid_loop_append os vid pid pre d post n
      (fun x hx => ⟨hsz x (by simp [hx]), hpre x hx⟩) (hsz d (by simp)) hq
  · intro hall
    rw [getDevNumByPidVid_eq_loop, getDevNumByPidVid_loop_eq os vid pid _ hsz]
    have : (interfaces os).findSome? (qualifyingNumber os vid pid) = none := by
      rw [List.findSome?_eq_none_iff]
      exact hall
    rw [this]
    rfl

/-- An instance of C10: in the scenario the first disk is not below a USB
device and the second one is the device 054C:0B94, with device number 7. -/
theorem getDevNumByPidVid_first_qualifying_witness :
    (∀ d ∈ interfaces osScenario, d.requiredSize ≠ 0) ∧
      getDevNumByPidVid osScenario 0x054C 0x0B94 = .ok 7 :=
  ⟨by decide,
    (getDevNumByPidVid_first_qualifying osScenario 0x054C 0x0B94 (by decide)).1⟩

end UsbDev
